import Mathlib

/-!
Verification of the token-extraction and reply-synchronization engine of
`src/emoji_connoisseur/extensions/emote.py` (the `Emotes` cog): the
`_extract_emotes` resolver loop, its two predicate policies
(`extract_emotes` and `quote_emotes`), the event handlers `on_message`,
`on_raw_message_edit`, `delete_reply`, `on_raw_message_delete`,
`on_raw_bulk_message_delete`, the `quote` command, and the bounded reply
cache `self.replies`.

Pieces of the repository referenced by `emote.py` but absent from `src/`
(`utils.lexer`, `utils.LRUDict`, `utils.fix_first_line`,
`utils.clean_content`, the `db` cog) are modelled from the spec; each such
definition carries a doc comment starting `Modelled from the spec:`.
External effects (database lookups, usage logging, Discord network calls)
are modelled by explicit parameters and by returning the list of outbound
calls a handler performs.
-/

namespace EmoteBot

/-- Token kinds produced by the lexer: the lexer classifies each substring
as plain text or as an `:name:` / `;name;` emote reference; in `emote.py`
these are the `toke1.type` values `TEXT` and `EMOTE`. -/
inductive TokenType where
  | TEXT
  | EMOTE
deriving DecidableEq, Repr

/-- A lexer token: its type and its exact source text (`toke1.value`). For
an `EMOTE` token the value still carries the `:`/`;` delimiters; the code
strips them with Python `str.strip` over the delimiter set before the
lookup. -/
structure Token where
  type : TokenType
  value : String
deriving DecidableEq, Repr

/-- A stored emote as the resolver uses it: `emote.id` and the rendered
form `str(emote)` that the resolver writes to the output buffer. -/
structure Emote where
  id : Nat
  rendered : String
deriving DecidableEq, Repr

/-- The symbol store lookup `self.db.get_emote(name)`: `none` models
`errors.EmoteNotFoundError`, `some e` a successful lookup. -/
def Db : Type := String → Option Emote

/-- Python `str.strip` with the delimiter set: remove all leading and all
trailing characters that are a colon or a semicolon. -/
def stripDelims (s : String) : String :=
  let isDelim : Char → Bool := fun c => c = ':' || c = ';'
  String.mk (((s.toList.dropWhile isDelim).reverse.dropWhile isDelim).reverse)

/-- Modelled from the spec: `utils.lexer` is not under `src/`. Spec §4.1
requires the tokenizer to classify the input into `TEXT` and `SYMBOL`
(emote) tokens "preserving exact byte/character spans so that
re-concatenation of all tokens' `text` reproduces the input verbatim".
We model its contract: the concatenation of the token values. -/
def joinTokens (ts : List Token) : String :=
  ts.foldl (fun acc t => acc ++ t.value) ""

/-- Modelled from the spec: a token list `ts` is a valid tokenization of
`content` when re-concatenating the tokens' text reproduces the input
verbatim (spec §4.1). Theorems about a message quantify over any such
tokenization. -/
def Tokenizes (ts : List Token) (content : String) : Prop :=
  joinTokens ts = content

/-- A resolver predicate as `_extract_emotes` receives it: the Python
predicate takes `(toke1, out)`, may write to `out`, and returns whether
the token is eligible for resolution. Both concrete predicates only ever
append to `out`, so a predicate is modelled as the pair
(text it writes to `out`, the boolean it returns). -/
def Pred : Type := Token → String × Bool

/-- The predicate of `extract_emotes` (symbol-only extraction): a newline
`TEXT` token is written through and rejected; every other token writes
nothing and is accepted iff its type is `EMOTE`. -/
def extractPredicate : Pred := fun t =>
  if t.type = TokenType.TEXT ∧ t.value = "\n" then (t.value, false)
  else ("", t.type = TokenType.EMOTE)

/-- The predicate of `quote_emotes` (quoting extraction): a non-`EMOTE`
token is written through verbatim and rejected; an `EMOTE` token writes
nothing and is accepted. -/
def quotePredicate : Pred := fun t =>
  if t.type ≠ TokenType.EMOTE then (t.value, false)
  else ("", true)

/-- Python `set.add` on a nodup list: append the element unless present.
Models `emotes_used.add(emote.id)`. -/
def setAdd (l : List Nat) (x : Nat) : List Nat :=
  if x ∈ l then l else l ++ [x]

/-- State of the `_extract_emotes` loop: the `out: StringIO` buffer and
the `emotes_used` set (as a duplicate-free list). -/
structure ExtractState where
  out : String
  used : List Nat
deriving DecidableEq, Repr

/-- One iteration of the `for toke1 in iter(lexer.token, None)` loop of
`_extract_emotes`: call the predicate (appending what it writes to `out`);
if it rejects the token, continue; otherwise look the stripped name up,
writing the literal `toke1.value` on `EmoteNotFoundError` and otherwise
writing `str(emote)` and adding `emote.id` to `emotes_used`. -/
def extractStep (db : Db) (p : Pred) (s : ExtractState) (t : Token) : ExtractState :=
  let w := p t
  let s' : ExtractState := { s with out := s.out ++ w.1 }
  if w.2 then
    match db (stripDelims t.value) with
    | none => { s' with out := s'.out ++ t.value }
    | some e => { out := s'.out ++ e.rendered, used := setAdd s'.used e.id }
  else s'

/-- The whole token loop of `_extract_emotes`, from the empty buffer and
empty used set. -/
def runExtract (db : Db) (p : Pred) (ts : List Token) : ExtractState :=
  ts.foldl (extractStep db p) ⟨"", []⟩

/-- Modelled from the spec: `utils.clean_content` is not under `src/`.
Spec §4.2 requires "If no symbol was found at all, `outputText` must equal
the original input content exactly (not a reconstruction from tokens),
guaranteeing byte-for-byte fidelity when no resolution occurred", so on
this path the final cleanup is content-preserving; it is modelled as the
identity on the composed text. -/
def clean_content (s : String) : String := s

/-- Result of `_extract_emotes`: the returned string and `has_emotes`
flag, together with the `emotes_used` set and the list of
`db.log_emote_use` calls performed (one per element of the set when
`log_usage` is true, in set order; none otherwise). -/
structure ExtractResult where
  output : String
  has_emotes : Bool
  used : List Nat
  usageCalls : List Nat
deriving DecidableEq, Repr

/-- `Emotes._extract_emotes(message, content, predicate=p, log_usage=l)`:
run the token loop, take `out.getvalue() if emotes_used else content`,
log each used emote once when `log_usage`, and return
`(utils.clean_content(result), bool(emotes_used))`. -/
def extractEmotesImpl (db : Db) (p : Pred) (content : String)
    (ts : List Token) (log_usage : Bool) : ExtractResult :=
  let s := runExtract db p ts
  let result := if s.used.isEmpty then content else s.out
  { output := clean_content result
    has_emotes := !s.used.isEmpty
    used := s.used
    usageCalls := if log_usage then s.used else [] }

/-- Modelled from the spec: `utils.fix_first_line` is not under `src/`.
Spec §4.3: the composer applies "a line-fix-up transform that strips a
spurious leading blank line that can result from newline-token handling in
extraction mode (a), ensuring the first visible line of the composed reply
is non-empty". Modelled as dropping one leading newline. -/
def fix_first_line (s : String) : String :=
  match s.data with
  | '\n' :: cs => String.mk cs
  | _ => s

/-- `Emotes.extract_emotes`: `_extract_emotes` with the symbol-only
predicate, with `utils.fix_first_line` applied to the extracted string. -/
def extract_emotes (db : Db) (content : String) (ts : List Token)
    (log_usage : Bool) : ExtractResult :=
  let r := extractEmotesImpl db extractPredicate content ts log_usage
  { r with output := fix_first_line r.output }

/-- `Emotes.quote_emotes`: `_extract_emotes` with the quoting predicate;
no line fix-up. -/
def quote_emotes (db : Db) (content : String) (ts : List Token)
    (log_usage : Bool) : ExtractResult :=
  extractEmotesImpl db quotePredicate content ts log_usage

/-- A reply message the bot sent (`message.channel.send(reply)`): its
Discord id and its current content (`reply.content`). -/
structure Reply where
  id : Nat
  content : String
deriving DecidableEq, Repr

/-- Modelled from the spec: `utils.LRUDict` is not under `src/`. Spec §3:
a bounded mapping from source-message id to reply, "the cache holds at
most `N` entries", "least-recently-inserted/accessed entry is dropped
first (LRU)". Entries are kept most-recent-first; `size` is the capacity
(`emote.py` constructs it with `size=1024**2//256`). -/
structure LRUDict where
  entries : List (Nat × Reply)
  size : Nat
deriving DecidableEq, Repr

/-- Key membership, `message_id in self.replies`. -/
def LRUDict.hasKey (c : LRUDict) (k : Nat) : Bool :=
  c.entries.any (fun p => p.1 = k)

/-- Lookup, `self.replies[message_id]`. -/
def LRUDict.find (c : LRUDict) (k : Nat) : Option Reply :=
  (c.entries.find? (fun p => p.1 = k)).map Prod.snd

/-- Removal, `del self.replies[message_id]` / the removal half of `pop`. -/
def LRUDict.eraseKey (c : LRUDict) (k : Nat) : LRUDict :=
  { c with entries := c.entries.filter (fun p => p.1 ≠ k) }

/-- Modelled from the spec: insertion `self.replies[message_id] = reply`
into the bounded LRU mapping. The new entry becomes most recent (replacing
any entry with the same key) and the list is truncated to the capacity,
dropping the least-recently-used tail entry when the cache was full. -/
def LRUDict.insert (c : LRUDict) (k : Nat) (v : Reply) : LRUDict :=
  { c with entries := ((k, v) :: c.entries.filter (fun p => p.1 ≠ k)).take c.size }

/-- Well-formedness maintained by the operations: distinct keys, at most
`size` entries. -/
def LRUDict.WF (c : LRUDict) : Prop :=
  (c.entries.map Prod.fst).Nodup ∧ c.entries.length ≤ c.size

/-- An outbound Discord call made by a handler: posting a new reply
(`channel.send`), editing a tracked reply (`reply.edit`), or deleting a
tracked reply (`reply.delete` / `message.delete`). -/
inductive Action where
  | send (text : String)
  | editMsg (replyId : Nat) (text : String)
  | deleteMsg (replyId : Nat)
deriving DecidableEq, Repr

/-- What one event handler did: the reply cache afterwards, the outbound
calls in order, the `db.log_emote_use` calls in order, and whether an
exception escaped the handler to the event dispatcher. -/
structure HandlerOut where
  replies : LRUDict
  actions : List Action
  usageCalls : List Nat
  raised : Bool
deriving DecidableEq, Repr

/-- A new-message event as `on_message` consumes it, together with a
tokenization of its content. -/
structure MessageEvent where
  id : Nat
  content : String
  ts : List Token
deriving Repr

/-- `Emotes.on_message`: the early-return gates (`should_reply`, command
contexts, the guild emoji permission check, `db.get_state`, the
blacklist) are collapsed into `gates`; when they pass, the message is
extracted with `log_usage=True`, and if it `has_emotes` the reply is
posted and cached under the message id (`newReplyId` is the id Discord
assigns to the sent reply). -/
def on_message (db : Db) (gates : Bool) (newReplyId : Nat)
    (replies : LRUDict) (m : MessageEvent) : HandlerOut :=
  if !gates then ⟨replies, [], [], false⟩
  else
    let r := extract_emotes db m.content m.ts true
    if !r.has_emotes then ⟨replies, [], r.usageCalls, false⟩
    else
      ⟨replies.insert m.id ⟨newReplyId, r.output⟩,
       [Action.send r.output], r.usageCalls, false⟩

/-- A raw-edit event: `payload.message_id`, whether the `content` key is
present in `payload.data`, and the new content with a tokenization of
it. -/
structure EditPayload where
  message_id : Nat
  hasContentKey : Bool
  content : String
  ts : List Token
deriving Repr

/-- `Emotes.on_raw_message_edit`: return unless the message has a tracked
reply and the payload carries `content`; re-extract with
`log_usage=False`; if nothing resolved, drop the cache entry and delete
the tracked reply (`return await reply.delete()` — not wrapped in
`contextlib.suppress`, so `deleteFails` escapes as `raised`); if the new
text equals the reply's current content, do nothing; otherwise edit the
reply in place (`await reply.edit(...)`, also unwrapped: `editFails`
escapes). -/
def on_raw_message_edit (db : Db) (deleteFails editFails : Bool)
    (replies : LRUDict) (p : EditPayload) : HandlerOut :=
  if !(replies.hasKey p.message_id) || !p.hasContentKey then
    ⟨replies, [], [], false⟩
  else
    let r := extract_emotes db p.content p.ts false
    match replies.find p.message_id with
    | none => ⟨replies, [], [], false⟩
    | some reply =>
      if !r.has_emotes then
        ⟨replies.eraseKey p.message_id, [Action.deleteMsg reply.id], [], deleteFails⟩
      else if r.output = reply.content then
        ⟨replies, [], [], false⟩
      else
        ⟨replies, [Action.editMsg reply.id r.output], [], editFails⟩

/-- `Emotes.delete_reply(message_id)`: `self.replies.pop(message_id)`,
returning on `KeyError`; the `message.delete()` call is wrapped in
`contextlib.suppress(discord.HTTPException)`, so the transport outcome
(`fails`) never affects the result and nothing is raised: `raised` is
`false` by construction for every `fails` oracle. -/
def delete_reply (fails : Nat → Bool) (replies : LRUDict) (mid : Nat) :
    HandlerOut :=
  match replies.find mid with
  | none => ⟨replies, [], [], false⟩
  | some reply =>
      let _ := fails reply.id
      ⟨replies.eraseKey mid, [Action.deleteMsg reply.id], [], false⟩

/-- `Emotes.on_raw_message_delete`: `delete_reply` on the payload id. -/
def on_raw_message_delete (fails : Nat → Bool) (replies : LRUDict)
    (mid : Nat) : HandlerOut :=
  delete_reply fails replies mid

/-- `Emotes.on_raw_bulk_message_delete`: `delete_reply` sequentially on
each id of the payload, accumulating the outbound calls. -/
def on_raw_bulk_message_delete (fails : Nat → Bool) (replies : LRUDict) :
    List Nat → HandlerOut
  | [] => ⟨replies, [], [], false⟩
  | mid :: mids =>
      let h := delete_reply fails replies mid
      let rest := on_raw_bulk_message_delete fails h.replies mids
      ⟨rest.replies, h.actions ++ rest.actions, [], false⟩

/-- Outcome of the `quote` command body. In `emote.py` line 143 the
tuple unpacking `message, _ = await self.quote_emotes(...)` rebinds the
local `_` (elsewhere the translation function) to the returned
`has_emotes` boolean; when the bot has manage-messages permission, line
147 then calls `_` — now a boolean — on the attribution template,
raising `TypeError` before anything is sent. Without the permission, the
substituted body is sent as-is, with no attribution line. -/
inductive QuoteOutcome where
  | sent (text : String)
  | typeErrorRaised
deriving DecidableEq, Repr

/-- `Emotes.quote`: run `quote_emotes` on the raw command argument (no
`log_usage` argument is passed, so it defaults to `False`); branch on the
bot's manage-messages permission as described on `QuoteOutcome`. Returns
the outcome together with the `db.log_emote_use` calls performed. -/
def quote (db : Db) (manageMessages : Bool) (content : String)
    (ts : List Token) : QuoteOutcome × List Nat :=
  let r := quote_emotes db content ts false
  if manageMessages then (QuoteOutcome.typeErrorRaised, r.usageCalls)
  else (QuoteOutcome.sent r.output, r.usageCalls)

/-! Specification-side description of the resolver output (spec §4.2, §8
"Order preservation"): each token contributes, at the position of its
originating token, whatever the predicate wrote for it followed by — when
the token is accepted — the rendered form of the resolved symbol, or the
literal token text on `NotFound`. -/

/-- The contribution of a single token to the resolver's output, per the
spec's wording: the predicate's rejected-token write-through, and for an
accepted token its resolved rendered form or its literal text. -/
def tokenContribution (db : Db) (p : Pred) (t : Token) : String :=
  (p t).1 ++
    (if (p t).2 then
      match db (stripDelims t.value) with
      | none => t.value
      | some e => e.rendered
    else "")

/-- The tokens' contributions concatenated in source token order. -/
def contribs (db : Db) (p : Pred) : List Token → String
  | [] => ""
  | t :: ts => tokenContribution db p t ++ contribs db p ts

/-! Helper lemmas about the extraction fold. -/

theorem extractStep_out (db : Db) (p : Pred) (s : ExtractState) (t : Token) :
    (extractStep db p s t).out = s.out ++ tokenContribution db p t := by
  unfold extractStep tokenContribution
  cases hb : (p t).2
  · simp [hb]
  · cases hdb : db (stripDelims t.value) <;>
      simp [hb, hdb, String.append_assoc]

theorem foldl_extract_out (db : Db) (p : Pred) :
    ∀ (ts : List Token) (s : ExtractState),
      (List.foldl (extractStep db p) s ts).out = s.out ++ contribs db p ts := by
  intro ts
  induction ts with
  | nil => intro s; simp [contribs]
  | cons t ts ih =>
      intro s
      simp only [List.foldl_cons, contribs]
      rw [ih, extractStep_out, String.append_assoc]

theorem runExtract_out (db : Db) (p : Pred) (ts : List Token) :
    (runExtract db p ts).out = contribs db p ts := by
  have h := foldl_extract_out db p ts ⟨"", []⟩
  simpa [runExtract] using h

theorem mem_setAdd_self (l : List Nat) (x : Nat) : x ∈ setAdd l x := by
  unfold setAdd
  by_cases h : x ∈ l <;> simp [h]

theorem mem_setAdd_of_mem (l : List Nat) (x y : Nat) (h : y ∈ l) :
    y ∈ setAdd l x := by
  unfold setAdd
  by_cases hx : x ∈ l <;> simp [h, hx]

theorem setAdd_nodup (l : List Nat) (x : Nat) (h : l.Nodup) :
    (setAdd l x).Nodup := by
  unfold setAdd
  by_cases hx : x ∈ l <;> simp [List.nodup_append, h, hx]

theorem extractStep_used_mem (db : Db) (p : Pred) (s : ExtractState)
    (t : Token) (y : Nat) (h : y ∈ s.used) :
    y ∈ (extractStep db p s t).used := by
  unfold extractStep
  cases hb : (p t).2
  · simpa [hb] using h
  · cases hdb : db (stripDelims t.value) <;>
      simp [hb, hdb, h, mem_setAdd_of_mem]

theorem foldl_extract_used_mem (db : Db) (p : Pred) :
    ∀ (ts : List Token) (s : ExtractState) (y : Nat), y ∈ s.used →
      y ∈ (List.foldl (extractStep db p) s ts).used := by
  intro ts
  induction ts with
  | nil => intro s y h; simpa using h
  | cons t ts ih =>
      intro s y h
      simp only [List.foldl_cons]
      exact ih _ y (extractStep_used_mem db p s t y h)

theorem foldl_extract_used_resolved (db : Db) (p : Pred) :
    ∀ (ts : List Token) (s : ExtractState) (t : Token) (e : Emote),
      t ∈ ts → (p t).2 = true → db (stripDelims t.value) = some e →
      e.id ∈ (List.foldl (extractStep db p) s ts).used := by
  intro ts
  induction ts with
  | nil => intro s t e ht _ _; cases ht
  | cons t' ts ih =>
      intro s t e ht hb hdb
      simp only [List.foldl_cons]
      rcases List.mem_cons.mp ht with h | h
      · subst h
        apply foldl_extract_used_mem
        unfold extractStep
        simp [hb, hdb, mem_setAdd_self]
      · exact ih _ t e h hb hdb

theorem foldl_extract_used_nodup (db : Db) (p : Pred) :
    ∀ (ts : List Token) (s : ExtractState), s.used.Nodup →
      (List.foldl (extractStep db p) s ts).used.Nodup := by
  intro ts
  induction ts with
  | nil => intro s h; simpa using h
  | cons t ts ih =>
      intro s h
      simp only [List.foldl_cons]
      apply ih
      unfold extractStep
      cases hb : (p t).2
      · simpa [hb] using h
      · cases hdb : db (stripDelims t.value) <;>
          simp [hb, hdb, h, setAdd_nodup]

theorem foldl_extract_used_none (db : Db) (p : Pred) :
    ∀ (ts : List Token) (s : ExtractState),
      (∀ t ∈ ts, (p t).2 = true → db (stripDelims t.value) = none) →
      (List.foldl (extractStep db p) s ts).used = s.used := by
  intro ts
  induction ts with
  | nil => intro s _; rfl
  | cons t ts ih =>
      intro s h
      simp only [List.foldl_cons]
      have hstep : (extractStep db p s t).used = s.used := by
        unfold extractStep
        cases hb : (p t).2
        · simp [hb]
        · simp [hb, h t (List.mem_cons_self t ts) hb]
      rw [ih _ fun t' ht' => h t' (List.mem_cons_of_mem t ht'), hstep]

theorem runExtract_used_nodup (db : Db) (p : Pred) (ts : List Token) :
    (runExtract db p ts).used.Nodup :=
  foldl_extract_used_nodup db p ts ⟨"", []⟩ List.nodup_nil

/-- Shared characterization: when some accepted token resolves and every
accepted token resolves, `_extract_emotes` returns the buffer, which is
the source-ordered concatenation of the tokens' contributions. -/
theorem extractImpl_output_resolved (db : Db) (p : Pred) (content : String)
    (ts : List Token) (log_usage : Bool)
    (h1 : ∀ t ∈ ts, (p t).2 = true → (db (stripDelims t.value)).isSome = true)
    (h2 : ∃ t ∈ ts, (p t).2 = true) :
    (extractEmotesImpl db p content ts log_usage).output = contribs db p ts := by
  obtain ⟨t, ht, hb⟩ := h2
  obtain ⟨e, he⟩ := Option.isSome_iff_exists.mp (h1 t ht hb)
  have hmem : e.id ∈ (runExtract db p ts).used :=
    foldl_extract_used_resolved db p ts ⟨"", []⟩ t e ht hb he
  have hne : (runExtract db p ts).used.isEmpty = false := by
    cases hu : (runExtract db p ts).used with
    | nil => rw [hu] at hmem; cases hmem
    | cons a l => simp
  unfold extractEmotesImpl
  simp [hne, clean_content, runExtract_out]

/-! Helper lemmas about the reply cache. -/

theorem hasKey_of_find (c : LRUDict) (k : Nat) (r : Reply)
    (h : c.find k = some r) : c.hasKey k = true := by
  unfold LRUDict.find at h
  unfold LRUDict.hasKey
  obtain ⟨p, hp⟩ := Option.map_eq_some'.mp h
  have hmem := List.mem_of_find?_eq_some hp.1
  have hkey := List.find?_some hp.1
  exact List.any_eq_true.mpr ⟨p, hmem, hkey⟩

theorem find_eq_none_of_hasKey (c : LRUDict) (k : Nat)
    (h : c.hasKey k = false) : c.find k = none := by
  unfold LRUDict.hasKey at h
  unfold LRUDict.find
  rw [List.any_eq_false] at h
  rw [List.find?_eq_none.mpr fun p hp => by simpa using h p hp]
  rfl

theorem eraseKey_hasKey (c : LRUDict) (m k : Nat) :
    (c.eraseKey m).hasKey k = true ↔ (c.hasKey k = true ∧ k ≠ m) := by
  unfold LRUDict.eraseKey LRUDict.hasKey
  simp only [List.any_eq_true, List.mem_filter]
  constructor
  · rintro ⟨p, ⟨hp, hne⟩, hk⟩
    have hk' : p.1 = k := by simpa using hk
    refine ⟨⟨p, hp, hk⟩, ?_⟩
    rw [← hk']
    simpa using hne
  · rintro ⟨⟨p, hp, hk⟩, hne⟩
    have hk' : p.1 = k := by simpa using hk
    exact ⟨p, ⟨hp, by simp [hk', hne]⟩, hk⟩

theorem delete_reply_hasKey (fails : Nat → Bool) (c : LRUDict) (mid k : Nat) :
    (delete_reply fails c mid).replies.hasKey k = true ↔
      (c.hasKey k = true ∧ k ≠ mid) := by
  unfold delete_reply
  cases hf : c.find mid with
  | none =>
      have hk : c.hasKey mid = false := by
        unfold LRUDict.find at hf
        rw [Option.map_eq_none'] at hf
        rw [List.find?_eq_none] at hf
        unfold LRUDict.hasKey
        rw [List.any_eq_false]
        intro p hp
        simpa using hf p hp
      simp only [hf]
      constructor
      · intro h; refine ⟨h, ?_⟩
        intro hkm; subst hkm
        rw [h] at hk; cases hk
      · intro h; exact h.1
  | some reply =>
      simp only [hf]
      exact eraseKey_hasKey c mid k

theorem bulk_delete_hasKey (fails : Nat → Bool) :
    ∀ (mids : List Nat) (c : LRUDict) (k : Nat),
      (on_raw_bulk_message_delete fails c mids).replies.hasKey k = true ↔
        (c.hasKey k = true ∧ k ∉ mids) := by
  intro mids
  induction mids with
  | nil => intro c k; simp [on_raw_bulk_message_delete]
  | cons mid mids ih =>
      intro c k
      show (on_raw_bulk_message_delete fails
        (delete_reply fails c mid).replies mids).replies.hasKey k = true ↔ _
      rw [ih, delete_reply_hasKey]
      constructor
      · rintro ⟨⟨h1, h2⟩, h3⟩
        exact ⟨h1, by simp [h2, h3]⟩
      · rintro ⟨h1, h2⟩
        simp only [List.mem_cons, not_or] at h2
        exact ⟨⟨h1, h2.1⟩, h2.2⟩

theorem bulk_delete_raised (fails : Nat → Bool) (c : LRUDict)
    (mids : List Nat) :
    (on_raw_bulk_message_delete fails c mids).raised = false := by
  cases mids <;> rfl

theorem delete_reply_fails_irrelevant (fails fails' : Nat → Bool)
    (c : LRUDict) (mid : Nat) :
    delete_reply fails c mid = delete_reply fails' c mid := rfl

theorem bulk_delete_fails_irrelevant (fails fails' : Nat → Bool) :
    ∀ (mids : List Nat) (c : LRUDict),
      on_raw_bulk_message_delete fails c mids =
        on_raw_bulk_message_delete fails' c mids := by
  intro mids
  induction mids with
  | nil => intro c; rfl
  | cons mid mids ih =>
      intro c
      show (⟨_, _, _, _⟩ : HandlerOut) = ⟨_, _, _, _⟩
      rw [delete_reply_fails_irrelevant fails fails' c mid, ih]

/-! Concrete fixtures used by the witnesses. -/

/-- A concrete store: `x` renders as `X` (id 1), `y` as `Y` (id 2),
everything else is `EmoteNotFoundError`. -/
def dbXY : Db := fun n =>
  if n = "x" then some ⟨1, "X"⟩
  else if n = "y" then some ⟨2, "Y"⟩
  else none

/-- A concrete store in which no name resolves. -/
def dbNone : Db := fun _ => none

/-- The tokenization of `"a :x: b :y: c"`. -/
def tsXY : List Token :=
  [⟨TokenType.TEXT, "a "⟩, ⟨TokenType.EMOTE, ":x:"⟩,
   ⟨TokenType.TEXT, " b "⟩, ⟨TokenType.EMOTE, ":y:"⟩,
   ⟨TokenType.TEXT, " c"⟩]

/-- The tokenization of `":unknown:"`. -/
def tsUnknown : List Token := [⟨TokenType.EMOTE, ":unknown:"⟩]

/-! The claims. -/

/-- C1: for every token sequence in which every accepted symbol token
resolves (and at least one token is accepted), `_extract_emotes` produces
the tokens' contributions concatenated in source token order: each
resolved symbol's rendered form appears at the position of its originating
token. The code awaits each lookup before moving to the next token, so
the buffer is filled in token order independent of how long any lookup
takes; in particular `"a :x: b :y: c"` yields `"a X b Y c"`. -/
theorem claim_C1_order_preservation (db : Db) (p : Pred) (content : String)
    (ts : List Token) (log_usage : Bool)
    (h1 : ∀ t ∈ ts, (p t).2 = true → (db (stripDelims t.value)).isSome = true)
    (h2 : ∃ t ∈ ts, (p t).2 = true) :
    (extractEmotesImpl db p content ts log_usage).output = contribs db p ts :=
  extractImpl_output_resolved db p content ts log_usage h1 h2

/-- Witness for C1 at the spec's example: quoting-mode extraction of
`"a :x: b :y: c"` against the store resolving `x` and `y`. -/
theorem claim_C1_order_preservation_witness :
    (extractEmotesImpl dbXY quotePredicate "a :x: b :y: c" tsXY false).output
      = "a X b Y c" := by
  have h := claim_C1_order_preservation dbXY quotePredicate "a :x: b :y: c"
    tsXY false (by decide) (by decide)
  rw [h]
  rfl

/-- C2: when no accepted token's lookup succeeds (in particular when there
is no symbol token at all), `_extract_emotes` returns the original input
content itself — the code returns `content`, not the token
reconstruction, so the identity is byte for byte — and the used set is
empty. -/
theorem claim_C2_roundtrip_identity (db : Db) (p : Pred) (content : String)
    (ts : List Token) (log_usage : Bool)
    (h : ∀ t ∈ ts, (p t).2 = true → db (stripDelims t.value) = none) :
    (extractEmotesImpl db p content ts log_usage).output = content
    ∧ (extractEmotesImpl db p content ts log_usage).used = [] := by
  have hu : (runExtract db p ts).used = [] :=
    foldl_extract_used_none db p ts ⟨"", []⟩ h
  constructor <;> simp [extractEmotesImpl, hu, clean_content]

/-- Witness for C2: symbol-only extraction of `":unknown:"` against a
store that resolves nothing returns the input unchanged. -/
theorem claim_C2_roundtrip_identity_witness :
    (extractEmotesImpl dbNone extractPredicate ":unknown:" tsUnknown
        false).output = ":unknown:"
    ∧ (extractEmotesImpl dbNone extractPredicate ":unknown:" tsUnknown
        false).used = [] :=
  claim_C2_roundtrip_identity dbNone extractPredicate ":unknown:" tsUnknown
    false (by decide)

/-- C3: a token whose lookup returns NotFound contributes its literal
original text and adds nothing to the used set; consequently, a new
message whose accepted symbol tokens all fail to resolve has an empty
used set, and `on_message` posts no reply and creates no cache entry. -/
theorem claim_C3_unknown_fallback (db : Db) (p : Pred) (gates : Bool)
    (newReplyId : Nat) (c : LRUDict) (m : MessageEvent)
    (s : ExtractState) (t : Token) :
    ((p t).2 = true → db (stripDelims t.value) = none →
      extractStep db p s t = ⟨s.out ++ (p t).1 ++ t.value, s.used⟩)
    ∧ ((∀ t' ∈ m.ts, (extractPredicate t').2 = true →
          db (stripDelims t'.value) = none) →
        (extract_emotes db m.content m.ts true).used = []
        ∧ on_message db gates newReplyId c m = ⟨c, [], [], false⟩) := by
  constructor
  · intro hb hdb
    unfold extractStep
    simp [hb, hdb]
  · intro h
    have hu : (runExtract db extractPredicate m.ts).used = [] :=
      foldl_extract_used_none db extractPredicate m.ts ⟨"", []⟩ h
    have hused : (extract_emotes db m.content m.ts true).used = [] := by
      simp [extract_emotes, extractEmotesImpl, hu]
    refine ⟨hused, ?_⟩
    cases gates with
    | false => rfl
    | true =>
        have hhe : (extract_emotes db m.content m.ts true).has_emotes = false := by
          simp [extract_emotes, extractEmotesImpl, hu]
        have husage :
            (extract_emotes db m.content m.ts true).usageCalls = [] := by
          simp [extract_emotes, extractEmotesImpl, hu]
        unfold on_message
        simp [hhe, husage]

/-- Witness for C3: the single-token message `":unknown:"` against a
store that resolves nothing, on a fresh cache. -/
theorem claim_C3_unknown_fallback_witness :
    extractStep dbNone extractPredicate ⟨"", []⟩ ⟨TokenType.EMOTE, ":unknown:"⟩
        = ⟨":unknown:", []⟩
    ∧ (extract_emotes dbNone ":unknown:" tsUnknown true).used = []
    ∧ on_message dbNone true 7 ⟨[], 4096⟩ ⟨5, ":unknown:", tsUnknown⟩
        = ⟨⟨[], 4096⟩, [], [], false⟩ := by
  have h := claim_C3_unknown_fallback dbNone extractPredicate true 7
    ⟨[], 4096⟩ ⟨5, ":unknown:", tsUnknown⟩ ⟨"", []⟩
    ⟨TokenType.EMOTE, ":unknown:"⟩
  obtain ⟨h1, h2⟩ := h
  refine ⟨?_, (h2 (by decide)).1, (h2 (by decide)).2⟩
  have := h1 (by decide) (by decide)
  simpa using this

/-- C4: on a newly observed message (`on_message`, which extracts with
`log_usage=True`), each distinct resolved symbol id is logged exactly once
— `emotes_used` is a set, so the count is 1 no matter how many tokens
resolved to that id — while re-extraction for an edit
(`on_raw_message_edit`, which extracts with `log_usage=False`) performs
zero usage increments. -/
theorem claim_C4_usage_once (db : Db) (newReplyId : Nat) (c : LRUDict)
    (m : MessageEvent) (t : Token) (e : Emote)
    (ht : t ∈ m.ts) (htype : t.type = TokenType.EMOTE)
    (he : db (stripDelims t.value) = some e) :
    (on_message db true newReplyId c m).usageCalls.count e.id = 1
    ∧ ∀ (deleteFails editFails : Bool) (c' : LRUDict) (p : EditPayload),
        (on_raw_message_edit db deleteFails editFails c' p).usageCalls = [] := by
  constructor
  · have hb : (extractPredicate t).2 = true := by
      unfold extractPredicate
      have hnot : ¬(t.type = TokenType.TEXT ∧ t.value = "\n") := by
        intro hcontra
        rw [htype] at hcontra
        cases hcontra.1
      simp [hnot, htype]
    have hmem : e.id ∈ (runExtract db extractPredicate m.ts).used :=
      foldl_extract_used_resolved db extractPredicate m.ts ⟨"", []⟩ t e ht hb he
    have hnd := runExtract_used_nodup db extractPredicate m.ts
    have husage1 : (extract_emotes db m.content m.ts true).usageCalls
        = (runExtract db extractPredicate m.ts).used := by
      simp [extract_emotes, extractEmotesImpl]
    have husage2 : (on_message db true newReplyId c m).usageCalls
        = (extract_emotes db m.content m.ts true).usageCalls := by
      unfold on_message
      cases hE : (extract_emotes db m.content m.ts true).has_emotes <;>
        simp [hE]
    rw [husage2, husage1]
    exact List.count_eq_one_of_mem hnd hmem
  · intro deleteFails editFails c' p
    unfold on_raw_message_edit
    rcases hg : (!c'.hasKey p.message_id || !p.hasContentKey) with _ | _
    · simp only [hg]
      cases hf : c'.find p.message_id with
      | none => rfl
      | some reply =>
          simp only [hf]
          cases hE : (extract_emotes db p.content p.ts false).has_emotes
          · simp [hE]
          · by_cases heq :
              (extract_emotes db p.content p.ts false).output = reply.content <;>
              simp [hE, heq]
    · simp only [hg]
      rfl

/-- Witness for C4: the message `":x: :x:"` (two tokens resolving to the
same emote id) is logged once; an edit event re-extraction logs nothing. -/
theorem claim_C4_usage_once_witness :
    (on_message dbXY true 7 ⟨[], 4096⟩
        ⟨5, ":x: :x:", [⟨TokenType.EMOTE, ":x:"⟩, ⟨TokenType.TEXT, " "⟩,
          ⟨TokenType.EMOTE, ":x:"⟩]⟩).usageCalls.count 1 = 1
    ∧ (on_raw_message_edit dbXY false false ⟨[], 4096⟩
        ⟨5, true, ":x:", [⟨TokenType.EMOTE, ":x:"⟩]⟩).usageCalls = [] := by
  have h := claim_C4_usage_once dbXY 7 ⟨[], 4096⟩
    ⟨5, ":x: :x:", [⟨TokenType.EMOTE, ":x:"⟩, ⟨TokenType.TEXT, " "⟩,
      ⟨TokenType.EMOTE, ":x:"⟩]⟩
    ⟨TokenType.EMOTE, ":x:"⟩ ⟨1, "X"⟩ (by decide) (by decide) (by decide)
  exact ⟨h.1, h.2 false false ⟨[], 4096⟩ ⟨5, true, ":x:", [⟨TokenType.EMOTE, ":x:"⟩]⟩⟩

/-- A tracked cache with one entry: source message 10 ↦ reply 99 whose
current content is `"X"`. -/
def cacheOne : LRUDict := ⟨[(10, ⟨99, "X"⟩)], 4096⟩

/-- An edit payload for message 10 whose new content has no resolvable
symbols. -/
def editNoEmotes : EditPayload :=
  ⟨10, true, "no emotes here", [⟨TokenType.TEXT, "no emotes here"⟩]⟩

/-- C5: on an edit of a message with a tracked reply, when the
re-extracted content still resolves symbols and composes to exactly the
reply's current content, `on_raw_message_edit` makes no `editMessage` (or
any other) call and leaves the cache unchanged. -/
theorem claim_C5_idempotent_edit (db : Db) (deleteFails editFails : Bool)
    (c : LRUDict) (p : EditPayload) (reply : Reply)
    (hfind : c.find p.message_id = some reply)
    (hck : p.hasContentKey = true)
    (hhe : (extract_emotes db p.content p.ts false).has_emotes = true)
    (heq : (extract_emotes db p.content p.ts false).output = reply.content) :
    on_raw_message_edit db deleteFails editFails c p = ⟨c, [], [], false⟩ := by
  have hkey := hasKey_of_find c p.message_id reply hfind
  unfold on_raw_message_edit
  simp [hkey, hck, hfind, hhe, heq]

/-- Witness for C5: editing message 10 to `":x:"`, which re-composes to
the tracked reply's current content `"X"`. -/
theorem claim_C5_idempotent_edit_witness :
    on_raw_message_edit dbXY true true cacheOne
        ⟨10, true, ":x:", [⟨TokenType.EMOTE, ":x:"⟩]⟩
      = ⟨cacheOne, [], [], false⟩ :=
  claim_C5_idempotent_edit dbXY true true cacheOne
    ⟨10, true, ":x:", [⟨TokenType.EMOTE, ":x:"⟩]⟩ ⟨99, "X"⟩
    (by decide) (by decide) (by decide) (by decide)

/-- C6 counterexample: in `on_raw_message_edit` the no-emotes branch runs
`return await reply.delete()` with no `contextlib.suppress` around it, so
a failing delete escapes the handler (`raised = true`) instead of being
swallowed as the claim states — even though the entry was already removed
and exactly one delete was attempted. -/
theorem claim_C6_counterexample :
    (on_raw_message_edit dbNone true false cacheOne editNoEmotes).raised = true
    ∧ (on_raw_message_edit dbNone true false cacheOne
        editNoEmotes).replies.hasKey 10 = false
    ∧ (on_raw_message_edit dbNone true false cacheOne editNoEmotes).actions
        = [Action.deleteMsg 99] := by
  decide

/-- C6 (amended): on an edit of a tracked message whose new content has no
resolvable symbols, exactly one `deleteMessage` call is made on the
tracked reply and the cache entry is removed first, hence removed
regardless of whether the delete succeeds; but a failure of that delete
call propagates to the event-processing caller (the `raised` flag equals
`deleteFails`) instead of being swallowed. -/
theorem claim_C6_amended (db : Db) (deleteFails editFails : Bool)
    (c : LRUDict) (p : EditPayload) (reply : Reply)
    (hfind : c.find p.message_id = some reply)
    (hck : p.hasContentKey = true)
    (h : ∀ t ∈ p.ts, (extractPredicate t).2 = true →
        db (stripDelims t.value) = none) :
    on_raw_message_edit db deleteFails editFails c p =
      ⟨c.eraseKey p.message_id, [Action.deleteMsg reply.id], [], deleteFails⟩ := by
  have hkey := hasKey_of_find c p.message_id reply hfind
  have hu : (runExtract db extractPredicate p.ts).used = [] :=
    foldl_extract_used_none db extractPredicate p.ts ⟨"", []⟩ h
  have hhe : (extract_emotes db p.content p.ts false).has_emotes = false := by
    simp [extract_emotes, extractEmotesImpl, hu]
  unfold on_raw_message_edit
  simp [hkey, hck, hfind, hhe]

/-- Witness for C6 (amended): the concrete failing-delete edit. -/
theorem claim_C6_amended_witness :
    on_raw_message_edit dbNone true false cacheOne editNoEmotes
      = ⟨cacheOne.eraseKey 10, [Action.deleteMsg 99], [], true⟩ :=
  claim_C6_amended dbNone true false cacheOne editNoEmotes ⟨99, "X"⟩
    (by decide) (by decide) (by decide)

/-- C7: bulk delete is the sequential application of the single-delete
transition: the handler never raises, its entire result is independent of
which deletes fail (each failure is swallowed by the
`contextlib.suppress` in `delete_reply`), a key survives iff it was
present and not in the batch, an id without a cache entry is a no-op, and
in the concrete scenario of the claim — entries {1,2,3}, bulk delete
{1,2}, the delete of reply 101 (entry 1) failing — entries 1 and 2 are
removed, entry 3 is untouched, and both deletes were attempted. -/
theorem claim_C7_bulk_delete (fails fails' : Nat → Bool) (c : LRUDict)
    (mids : List Nat) (mid k : Nat) :
    (on_raw_bulk_message_delete fails c mids).raised = false
    ∧ on_raw_bulk_message_delete fails c mids =
        on_raw_bulk_message_delete fails' c mids
    ∧ ((on_raw_bulk_message_delete fails c mids).replies.hasKey k = true ↔
        (c.hasKey k = true ∧ k ∉ mids))
    ∧ (c.hasKey mid = false → delete_reply fails c mid = ⟨c, [], [], false⟩)
    ∧ on_raw_bulk_message_delete (fun rid => rid == 101)
        ⟨[(1, ⟨101, "A"⟩), (2, ⟨102, "B"⟩), (3, ⟨103, "C"⟩)], 4096⟩ [1, 2]
        = ⟨⟨[(3, ⟨103, "C"⟩)], 4096⟩,
            [Action.deleteMsg 101, Action.deleteMsg 102], [], false⟩ := by
  refine ⟨bulk_delete_raised fails c mids,
    bulk_delete_fails_irrelevant fails fails' mids c,
    bulk_delete_hasKey fails mids c k, ?_, by decide⟩
  intro h
  simp [delete_reply, find_eq_none_of_hasKey c mid h]

/-- Witness for C7: an id with no cache entry is a no-op. -/
theorem claim_C7_bulk_delete_witness :
    delete_reply (fun rid => rid == 101) ⟨[(1, ⟨101, "A"⟩)], 4096⟩ 42
      = ⟨⟨[(1, ⟨101, "A"⟩)], 4096⟩, [], [], false⟩ :=
  (claim_C7_bulk_delete (fun rid => rid == 101) (fun rid => rid == 101)
    ⟨[(1, ⟨101, "A"⟩)], 4096⟩ [] 42 0).2.2.2.1 (by decide)

/-- Keys of the filtered entry list stay duplicate-free and no longer
contain the filtered-out key. -/
theorem insert_keys_nodup (c : LRUDict) (k : Nat) (v : Reply)
    (h : (c.entries.map Prod.fst).Nodup) :
    ((c.insert k v).entries.map Prod.fst).Nodup := by
  unfold LRUDict.insert
  have hfil : ((c.entries.filter (fun p => p.1 ≠ k)).map Prod.fst).Nodup :=
    List.Nodup.sublist ((c.entries.filter_sublist).map Prod.fst) h
  have hnk : k ∉ (c.entries.filter (fun p => p.1 ≠ k)).map Prod.fst := by
    intro hk
    obtain ⟨p, hp, hpk⟩ := List.mem_map.mp hk
    have hmem := List.of_mem_filter hp
    rw [decide_eq_true_eq] at hmem
    exact hmem hpk
  have hcons :
      (((k, v) :: c.entries.filter (fun p => p.1 ≠ k)).map Prod.fst).Nodup := by
    simp only [List.map_cons]
    exact List.nodup_cons.mpr ⟨hnk, hfil⟩
  exact List.Nodup.sublist ((List.take_sublist _ _).map Prod.fst) hcons

/-- C8: the reply cache is bounded: after any insert the entry count is at
most the capacity and well-formedness is preserved; inserting a fresh key
into a full cache keeps the count at the capacity and drops exactly the
least-recently-used (last) entry, keeping all others; and the handler that
performs cache inserts (`on_message`) never issues a `deleteMessage` call,
so eviction only removes tracking. -/
theorem claim_C8_capacity_eviction (c : LRUDict) (k : Nat) (v : Reply)
    (hwf : c.WF) :
    (c.insert k v).WF
    ∧ (c.entries.length = c.size → 0 < c.size → c.hasKey k = false →
        (c.insert k v).entries = (k, v) :: c.entries.dropLast
        ∧ (c.insert k v).entries.length = c.size)
    ∧ ∀ (db : Db) (gates : Bool) (rid : Nat) (replies : LRUDict)
        (m : MessageEvent) (a : Nat),
        Action.deleteMsg a ∉ (on_message db gates rid replies m).actions := by
  refine ⟨⟨insert_keys_nodup c k v hwf.1, ?_⟩, ?_, ?_⟩
  · show (List.take c.size _).length ≤ c.size
    rw [List.length_take]
    exact Nat.min_le_left _ _
  · intro hlen hpos hk
    have hfil : c.entries.filter (fun p => p.1 ≠ k) = c.entries := by
      apply List.filter_eq_self.mpr
      intro p hp
      rw [decide_eq_true_eq]
      intro hpk
      unfold LRUDict.hasKey at hk
      rw [List.any_eq_false] at hk
      exact absurd (by simpa using hpk) (by simpa using hk p hp)
    obtain ⟨n, hn⟩ : ∃ n, c.size = n + 1 :=
      ⟨c.size - 1, (Nat.succ_pred_eq_of_pos hpos).symm⟩
    have hentries : (c.insert k v).entries = (k, v) :: c.entries.take n := by
      unfold LRUDict.insert
      rw [hfil, hn, List.take_succ_cons]
    have htake : c.entries.take n = c.entries.dropLast := by
      rw [List.dropLast_eq_take, hlen, hn]
      simp
    constructor
    · rw [hentries, htake]
    · rw [hentries, List.length_cons, List.length_take, hlen, hn]
      simp
  · intro db gates rid replies m a
    unfold on_message
    cases gates with
    | false => simp
    | true =>
        cases hE : (extract_emotes db m.content m.ts true).has_emotes <;>
          simp [hE]

/-- Witness for C8: inserting key 3 into the full two-entry cache
`[1 ↦ 101, 2 ↦ 102]` of capacity 2 evicts exactly the oldest entry 2. -/
theorem claim_C8_capacity_eviction_witness :
    (LRUDict.insert ⟨[(1, ⟨101, "A"⟩), (2, ⟨102, "B"⟩)], 2⟩ 3 ⟨103, "C"⟩).entries
        = [(3, ⟨103, "C"⟩), (1, ⟨101, "A"⟩)]
    ∧ (LRUDict.insert ⟨[(1, ⟨101, "A"⟩), (2, ⟨102, "B"⟩)], 2⟩ 3
        ⟨103, "C"⟩).entries.length = 2 := by
  have h := (claim_C8_capacity_eviction ⟨[(1, ⟨101, "A"⟩), (2, ⟨102, "B"⟩)], 2⟩
    3 ⟨103, "C"⟩ ⟨by decide, by decide⟩).2.1 (by decide) (by decide) (by decide)
  simpa using h

/-- The tokenization of `" hi :x:"` (the raw argument of a `quote`
invocation, leading space preserved by `rest_is_raw`). -/
def tsHiX : List Token := [⟨TokenType.TEXT, " hi "⟩, ⟨TokenType.EMOTE, ":x:"⟩]

/-- C9 counterexample: the claim says every `quote` invocation posts an
attribution line followed by the quoted body. In the code the attribution
is only attempted when the bot has manage-messages permission, and on
that branch line 143 has rebound `_` (the translation function) to the
`has_emotes` boolean, so line 147 raises `TypeError` and nothing is
posted; without the permission the body is posted with no attribution
line at all. Both branches at a concrete input refute the claim. -/
theorem claim_C9_counterexample :
    (quote dbXY true " hi :x:" tsHiX).1 = QuoteOutcome.typeErrorRaised
    ∧ (quote dbXY false " hi :x:" tsHiX).1 = QuoteOutcome.sent " hi X" := by
  decide

/-- C9 (amended): when the bot lacks manage-messages permission, the
`quote` invocation posts exactly the quoted body — symbol tokens replaced
by their rendered forms, all non-symbol tokens preserved verbatim (their
contribution is their literal text), in source order, with no attribution
line; when it has the permission, the handler raises `TypeError` (the
shadowed `_`) before posting anything. -/
theorem claim_C9_quote_attribution (db : Db) (content : String)
    (ts : List Token)
    (h1 : ∀ t ∈ ts, (quotePredicate t).2 = true →
        (db (stripDelims t.value)).isSome = true)
    (h2 : ∃ t ∈ ts, (quotePredicate t).2 = true) :
    (quote db false content ts).1
        = QuoteOutcome.sent (contribs db quotePredicate ts)
    ∧ (quote db true content ts).1 = QuoteOutcome.typeErrorRaised
    ∧ ∀ t : Token, t.type ≠ TokenType.EMOTE →
        tokenContribution db quotePredicate t = t.value := by
  refine ⟨?_, rfl, ?_⟩
  · have h := extractImpl_output_resolved db quotePredicate content ts false h1 h2
    have hq : (quote db false content ts).1
        = QuoteOutcome.sent
            ((extractEmotesImpl db quotePredicate content ts false).output) := rfl
    rw [hq, h]
  · intro t hne
    unfold tokenContribution quotePredicate
    simp [hne]

/-- Witness for C9 (amended): quoting `" hi :x:"`. -/
theorem claim_C9_quote_attribution_witness :
    (quote dbXY false " hi :x:" tsHiX).1 = QuoteOutcome.sent " hi X"
    ∧ (quote dbXY true " hi :x:" tsHiX).1 = QuoteOutcome.typeErrorRaised := by
  have h := claim_C9_quote_attribution dbXY " hi :x:" tsHiX
    (by decide) (by decide)
  exact ⟨h.1.trans (by decide), h.2.1⟩

/-- C10: the quoting path never records symbol usage: `quote` calls
`quote_emotes` without a `log_usage` argument, which therefore defaults
to `False`, so no `log_emote_use` call is made for any symbol resolved
during quoting — whatever the store, the permission, the content or its
tokens. -/
theorem claim_C10_quote_no_usage (db : Db) (manageMessages : Bool)
    (content : String) (ts : List Token) :
    (quote db manageMessages content ts).2 = [] := by
  cases manageMessages <;> rfl

end EmoteBot
